import Mathlib

/-!
Verification of the `authrootstl` package (Microsoft authroot.stl parser).

The development embeds the decoding pipeline of `ctl.go`
(`ParseAuthrootstl` = `parsePKCS7` then `parseCTL`, the latter calling
`parseCTLogs` for the CT-log extension) over byte buffers represented as
`List Nat` (each entry the value of one byte, `< 256`).

The package builds on the `cryptobyte` TLV cursor, whose code is not part
of this repository; those primitives are modelled from the specification
of the TLV cursor (spec section 4.1), faithful to the DER subset it
describes: a header is a tag byte (low-tag-number form only) followed by
either a short-form length byte (`< 0x80`) or a long-form length of one
to four big-endian bytes that must be minimally encoded; declared lengths
are always checked against the remaining buffer before a sub-slice is
taken.
-/

namespace Authrootstl

/-- Big-endian interpretation of a list of bytes as a natural number. -/
def beNat : List Nat → Nat
  | [] => 0
  | b :: bs => b * 256 ^ bs.length + beNat bs

/-- Modelled from the spec: the header parse of the TLV cursor, shared by every
read/skip primitive.  On a buffer beginning `tag :: lenByte :: rest` it
returns `(tag, headerLen, totalLen)` where `totalLen` counts the header
bytes as well, or `none` when the tag uses the unsupported high-tag-number
form, the length is not in the accepted DER subset (long form of more than
four bytes, non-minimal long form, long form used for a value below 128),
or the length bytes themselves run past the end of the buffer. -/
def asn1Header : List Nat → Option (Nat × Nat × Nat)
  | t :: l :: rest =>
    if t % 32 = 31 then none
    else if l < 128 then some (t, 2, l + 2)
    else if l % 128 = 0 ∨ 4 < l % 128 then none
    else if rest.length < l % 128 then none
    else if beNat (rest.take (l % 128)) < 128 then none
    else if beNat (rest.take (l % 128)) / 2 ^ ((l % 128 - 1) * 8) = 0 then none
    else if 2 ^ 32 ≤ 2 + l % 128 + beNat (rest.take (l % 128)) then none
    else some (t, 2 + l % 128, 2 + l % 128 + beNat (rest.take (l % 128)))
  | _ => none

/-- Modelled from the spec: read one element of any tag, returning its
contents (header stripped), its tag, and the remainder of the buffer.
Fails when the declared length exceeds the remaining buffer. -/
def readAnyASN1 (s : List Nat) : Option (List Nat × Nat × List Nat) :=
  match asn1Header s with
  | none => none
  | some (t, hdr, len) =>
    if s.length < len then none
    else some ((s.take len).drop hdr, t, s.drop len)

/-- Modelled from the spec: read one element of any tag, returning its raw
bytes including tag and length (used where a sub-structure is kept as an
opaque unit), its tag, and the remainder. -/
def readAnyASN1Element (s : List Nat) : Option (List Nat × Nat × List Nat) :=
  match asn1Header s with
  | none => none
  | some (t, _, len) =>
    if s.length < len then none
    else some (s.take len, t, s.drop len)

/-- Modelled from the spec: read one element of the given tag, returning
its contents and the remainder. -/
def readASN1 (s : List Nat) (tag : Nat) : Option (List Nat × List Nat) :=
  match readAnyASN1 s with
  | none => none
  | some (out, t, rest) => if t = tag then some (out, rest) else none

/-- Modelled from the spec: read one element of the given tag, returning
its raw bytes including tag and length, and the remainder. -/
def readASN1Element (s : List Nat) (tag : Nat) : Option (List Nat × List Nat) :=
  match readAnyASN1Element s with
  | none => none
  | some (out, t, rest) => if t = tag then some (out, rest) else none

/-- Modelled from the spec: validate and discard an element of the given
tag, returning the remainder of the buffer. -/
def skipASN1 (s : List Nat) (tag : Nat) : Option (List Nat) :=
  match readASN1 s tag with
  | none => none
  | some (_, rest) => some rest

/-- Modelled from the spec: whether the buffer is non-empty and its first
byte equals the given tag. -/
def peekASN1Tag (s : List Nat) (tag : Nat) : Bool :=
  match s with
  | [] => false
  | b :: _ => b = tag

/-- Modelled from the spec: skip an OPTIONAL element of the given tag;
absence is not an error, but a present yet malformed element is. -/
def skipOptionalASN1 (s : List Nat) (tag : Nat) : Option (List Nat) :=
  if peekASN1Tag s tag then skipASN1 s tag else some s

/-- Modelled from the spec: read an OPTIONAL context-specific element of
the given tag, returning `none` as contents when absent. -/
def readOptionalASN1 (s : List Nat) (tag : Nat) : Option (Option (List Nat) × List Nat) :=
  if peekASN1Tag s tag then
    match readASN1 s tag with
    | none => none
    | some (out, rest) => some (some out, rest)
  else some (none, s)

/-- Modelled from the spec: DER INTEGER contents must be non-empty and
minimally encoded (no redundant leading 0x00 or 0xFF byte). -/
def checkASN1Integer (bytes : List Nat) : Bool :=
  match bytes with
  | [] => false
  | [_] => true
  | b0 :: b1 :: _ => ¬((b0 = 0 ∧ b1 < 128) ∨ (b0 = 255 ∧ 128 ≤ b1))

/-- Big-endian two-complement interpretation of INTEGER contents as an
arbitrary-precision integer. -/
def intFromBytes (bytes : List Nat) : Int :=
  match bytes with
  | [] => 0
  | b :: _ =>
    if 128 ≤ b then (beNat bytes : Int) - 2 ^ (8 * bytes.length) else (beNat bytes : Int)

/-- Modelled from the spec: read an INTEGER into an arbitrary-precision
integer; the big-integer form supports arbitrary length. -/
def readASN1BigInt (s : List Nat) : Option (Int × List Nat) :=
  match readASN1 s 2 with
  | none => none
  | some (bytes, rest) =>
    if checkASN1Integer bytes then some (intFromBytes bytes, rest) else none

/-- Modelled from the spec: read an INTEGER of at most eight content
bytes, sign-extended, as a 64-bit-representable integer. -/
def readASN1Int64 (s : List Nat) : Option (Int × List Nat) :=
  match readASN1 s 2 with
  | none => none
  | some (bytes, rest) =>
    if checkASN1Integer bytes ∧ bytes.length ≤ 8 then some (intFromBytes bytes, rest)
    else none

/-- Modelled from the spec: the 32-bit INTEGER form fails if the value
does not fit in a signed 32-bit integer. -/
def readASN1Int32 (s : List Nat) : Option (Int × List Nat) :=
  match readASN1Int64 s with
  | none => none
  | some (v, rest) =>
    if -(2 ^ 31) ≤ v ∧ v < 2 ^ 31 then some (v, rest) else none

/-- Modelled from the spec: one base-128 arc of an OBJECT IDENTIFIER.
`i` counts the octets consumed so far (at most five), `ret` accumulates
the value (kept below `2 ^ 24` before each shift); a leading 0x80 octet
is a non-minimal encoding and is rejected. -/
def readBase128Int : List Nat → Nat → Nat → Option (Nat × List Nat)
  | [], _, _ => none
  | b :: bs, i, ret =>
    if i = 5 then none
    else if 2 ^ 24 ≤ ret then none
    else if i = 0 ∧ b = 128 then none
    else if b < 128 then some (ret * 128 + b % 128, bs)
    else readBase128Int bs (i + 1) (ret * 128 + b % 128)

/-- Fuel-indexed loop reading the remaining arcs of an OBJECT IDENTIFIER;
`fuel` bounds the number of arcs, and is never exhausted when it starts
at the buffer length because every arc consumes at least one byte. -/
def readOIDRestF : Nat → List Nat → Option (List Nat)
  | _, [] => some []
  | 0, _ :: _ => none
  | fuel + 1, bytes =>
    match readBase128Int bytes 0 0 with
    | none => none
    | some (v, rest) =>
      match readOIDRestF fuel rest with
      | none => none
      | some arcs => some (v :: arcs)

/-- Remaining arcs of an OBJECT IDENTIFIER after the first combined arc. -/
def readOIDRest (bytes : List Nat) : Option (List Nat) :=
  readOIDRestF bytes.length bytes

/-- Modelled from the spec: read an OBJECT IDENTIFIER and decode it into
its dotted-arc sequence (the first content octet encodes the first two
arcs combined as `40 * a + b`, with a special case for first arc 2). -/
def readASN1ObjectIdentifier (s : List Nat) : Option (List Nat × List Nat) :=
  match readASN1 s 6 with
  | none => none
  | some (bytes, rest) =>
    if bytes = [] then none
    else
      match readBase128Int bytes 0 0 with
      | none => none
      | some (v, bytes2) =>
        match readOIDRest bytes2 with
        | none => none
        | some arcs =>
          some ((if v < 80 then [v / 40, v % 40] else [2, v - 80]) ++ arcs, rest)

/-- A decoded UTCTime instant. -/
structure Timestamp where
  year : Nat
  month : Nat
  day : Nat
  hour : Nat
  minute : Nat
  second : Nat
deriving DecidableEq, Repr

/-- Two ASCII digit bytes decoded as a number below 100. -/
def twoDigit (a b : Nat) : Option Nat :=
  if 48 ≤ a ∧ a ≤ 57 ∧ 48 ≤ b ∧ b ≤ 57 then some ((a - 48) * 10 + (b - 48)) else none

/-- Modelled from the spec: assemble a UTCTime timestamp from its decoded
fields, applying the implied century pivot (two-digit years of 50 and
above denote the twentieth century) and rejecting out-of-range fields. -/
def mkUTCTimestamp (y mo d h mi s : Nat) : Option Timestamp :=
  if 1 ≤ mo ∧ mo ≤ 12 ∧ 1 ≤ d ∧ d ≤ 31 ∧ h < 24 ∧ mi < 60 ∧ s < 60 then
    some ⟨if 50 ≤ y then 1900 + y else 2000 + y, mo, d, h, mi, s⟩
  else none

/-- Modelled from the spec: decode the compact UTCTime content, in the
form YYMMDDHHMMZ or YYMMDDHHMMSSZ (the trailing byte 90 is the letter Z). -/
def parseUTCTimeContent (bytes : List Nat) : Option Timestamp :=
  match bytes with
  | [y1, y2, mo1, mo2, d1, d2, h1, h2, mi1, mi2, z] =>
    if z = 90 then
      match twoDigit y1 y2, twoDigit mo1 mo2, twoDigit d1 d2,
          twoDigit h1 h2, twoDigit mi1 mi2 with
      | some y, some mo, some d, some h, some mi => mkUTCTimestamp y mo d h mi 0
      | _, _, _, _, _ => none
    else none
  | [y1, y2, mo1, mo2, d1, d2, h1, h2, mi1, mi2, s1, s2, z] =>
    if z = 90 then
      match twoDigit y1 y2, twoDigit mo1 mo2, twoDigit d1 d2,
          twoDigit h1 h2, twoDigit mi1 mi2, twoDigit s1 s2 with
      | some y, some mo, some d, some h, some mi, some sec => mkUTCTimestamp y mo d h mi sec
      | _, _, _, _, _, _ => none
    else none
  | _ => none

/-- Modelled from the spec: read a UTCTime element and decode it into an
absolute timestamp. -/
def readASN1UTCTime (s : List Nat) : Option (Timestamp × List Nat) :=
  match readASN1 s 23 with
  | none => none
  | some (bytes, rest) =>
    match parseUTCTimeContent bytes with
    | none => none
    | some t => some (t, rest)

/-!
The functions of `src/ctl.go`.  Each Go `for` loop over a shrinking
buffer becomes a fuel-indexed structural recursion plus a wrapper that
supplies the buffer length as fuel; every loop iteration consumes at
least one byte, so the fuel is never exhausted (proved below by the
unfolding lemmas, which recover the loop exactly as written in Go).
-/

/-- The `CTL` struct of `ctl.go` (field `EffectiveDate` is the decoded
UTCTime; `CTLogs` entries are raw SPKI bytes including tag and length). -/
structure CTL where
  SequenceNumber : Int
  EffectiveDate : Timestamp
  CTLogsVersion : List Int
  CTLogs : List (List Nat)
deriving DecidableEq, Repr

/-- The CT-log extension object identifier 1.3.6.1.4.1.311.10.3.52. -/
def ctLogOID : List Nat := [1, 3, 6, 1, 4, 1, 311, 10, 3, 52]

/-- Fuel-indexed form of the version loop of `parseCTLogs`
(`for !versionSequence.Empty()` reading 32-bit INTEGERs). -/
def ctlogsVersionLoopF : Nat → List Nat → List Int → Except String (List Int)
  | _, [], acc => .ok acc
  | 0, _ :: _, _ => .error "version SEQUENCE contains malformed INTEGER"
  | fuel + 1, s, acc =>
    match readASN1Int32 s with
    | none => .error "version SEQUENCE contains malformed INTEGER"
    | some (i, rest) => ctlogsVersionLoopF fuel rest (acc ++ [i])

/-- The version loop of `parseCTLogs`. -/
def ctlogsVersionLoop (s : List Nat) (acc : List Int) : Except String (List Int) :=
  ctlogsVersionLoopF s.length s acc

/-- Fuel-indexed form of the SPKI loop of `parseCTLogs`
(`for !sequence.Empty()` reading whole SEQUENCE elements). -/
def ctlogsKeysLoopF : Nat → List Nat → List (List Nat) → Except String (List (List Nat))
  | _, [], acc => .ok acc
  | 0, _ :: _, _ => .error "malformed SPKI SEQUENCE"
  | fuel + 1, s, acc =>
    match readASN1Element s 48 with
    | none => .error "malformed SPKI SEQUENCE"
    | some (spki, rest) => ctlogsKeysLoopF fuel rest (acc ++ [spki])

/-- The SPKI loop of `parseCTLogs`. -/
def ctlogsKeysLoop (s : List Nat) (acc : List (List Nat)) : Except String (List (List Nat)) :=
  ctlogsKeysLoopF s.length s acc

/-- Function `parseCTLogs` of `ctl.go`: decode the CT-log extension value into the
version list and the list of raw public-key blobs. -/
def parseCTLogs (der : List Nat) : Except String (List Int × List (List Nat)) :=
  match readASN1 der 48 with
  | none => .error "malformed SEQUENCE"
  | some (sequence, rest) =>
    if rest ≠ [] then .error "trailing bytes after SEQUENCE"
    else
      match readASN1 sequence 48 with
      | none => .error "malformed version SEQUENCE"
      | some (versionSequence, sequence2) =>
        match ctlogsVersionLoop versionSequence [] with
        | .error e => .error e
        | .ok version =>
          match ctlogsKeysLoop sequence2 [] with
          | .error e => .error e
          | .ok pubkeys => .ok (version, pubkeys)

/-- Fuel-indexed form of the extension loop of `parseCTL`
(`for !extensions.Empty()`); the accumulator carries the
`(CTLogsVersion, CTLogs)` pair, overwritten whenever an extension with
the CT-log OID is decoded. -/
def parseCTLExtensionsF :
    Nat → List Nat → List Int × List (List Nat) → Except String (List Int × List (List Nat))
  | _, [], acc => .ok acc
  | 0, _ :: _, _ => .error "malformed extension SEQUENCE"
  | fuel + 1, exts, acc =>
    match readASN1 exts 48 with
    | none => .error "malformed extension SEQUENCE"
    | some (extension, rest) =>
      match readASN1ObjectIdentifier extension with
      | none => .error "malformed extension OBJECT IDENTIFIER"
      | some (id, ext2) =>
        match skipOptionalASN1 ext2 1 with
        | none => .error "malformed extension BOOLEAN"
        | some ext3 =>
          match readASN1 ext3 4 with
          | none => .error "malformed extension OCTET STRING"
          | some (value, _) =>
            if id = ctLogOID then
              match parseCTLogs value with
              | .error e => .error ("error parsing CT logs extension: " ++ e)
              | .ok r => parseCTLExtensionsF fuel rest r
            else parseCTLExtensionsF fuel rest acc

/-- The extension loop of `parseCTL`. -/
def parseCTLExtensions (exts : List Nat) (acc : List Int × List (List Nat)) :
    Except String (List Int × List (List Nat)) :=
  parseCTLExtensionsF exts.length exts acc

/-- Function `parseCTL` of `ctl.go`: decode the CTL body into sequence number,
effective date, and the CT-log extension contents (empty when the
extensions block or the CT-log OID is absent). -/
def parseCTL (der : List Nat) : Except String CTL :=
  match readASN1 der 48 with
  | none => .error "malformed SEQUENCE"
  | some (sequence, rest) =>
    if rest ≠ [] then .error "trailing bytes after SEQUENCE"
    else
      match skipASN1 sequence 48 with
      | none => .error "malformed signers SEQUENCE"
      | some s2 =>
        match readASN1BigInt s2 with
        | none => .error "malformed sequence number INTEGER"
        | some (seqNum, s3) =>
          match readASN1UTCTime s3 with
          | none => .error "malformed effective date UTCTIME"
          | some (effDate, s4) =>
            match skipASN1 s4 48 with
            | none => .error "malformed algorithm identifier SEQUENCE"
            | some s5 =>
              match skipASN1 s5 48 with
              | none => .error "malformed entries SEQUENCE"
              | some s6 =>
                match readOptionalASN1 s6 160 with
                | none => .error "malformed extensions SEQUENCE"
                | some (optExt, _) =>
                  match optExt with
                  | none => .ok ⟨seqNum, effDate, [], []⟩
                  | some extWrap =>
                    match readASN1 extWrap 48 with
                    | none => .error "malformed inner extensions SEQUENCE"
                    | some (extensions, _) =>
                      match parseCTLExtensions extensions ([], []) with
                      | .error e => .error e
                      | .ok (v, l) => .ok ⟨seqNum, effDate, v, l⟩

/-- Function `parsePKCS7` of `ctl.go`: unwrap the PKCS#7 SignedData envelope down
to the inner content-type OID and the opaque content element (raw bytes
including tag and length).  Remainders after each entered wrapper are
discarded, exactly as the Go code overwrites its `sequence` variable. -/
def parsePKCS7 (der : List Nat) : Except String (List Nat × List Nat) :=
  match readASN1 der 48 with
  | none => .error "malformed SEQUENCE"
  | some (s1, _) =>
    match skipASN1 s1 6 with
    | none => .error "malformed OBJECT IDENTIFIER"
    | some s2 =>
      match readASN1 s2 160 with
      | none => .error "malformed SEQUENCE 2"
      | some (s3, _) =>
        match readASN1 s3 48 with
        | none => .error "malformed SEQUENCE 3"
        | some (s4, _) =>
          match skipASN1 s4 2 with
          | none => .error "malformed INTEGER"
          | some s5 =>
            match skipASN1 s5 49 with
            | none => .error "malformed SET"
            | some s6 =>
              match readASN1 s6 48 with
              | none => .error "malformed SEQUENCE 4"
              | some (s7, _) =>
                match readASN1ObjectIdentifier s7 with
                | none => .error "malformed content OBJECT IDENTIFIER"
                | some (oid, s8) =>
                  match readASN1 s8 160 with
                  | none => .error "malformed SEQUENCE 5"
                  | some (s9, _) =>
                    match readAnyASN1Element s9 with
                    | none => .error "malformed content element"
                    | some (content, _, _) => .ok (oid, content)

/-- Function `ParseAuthrootstl` of `ctl.go`: the pipeline entry point. -/
def ParseAuthrootstl (der : List Nat) : Except String CTL :=
  match parsePKCS7 der with
  | .error e => .error ("error parsing PKCS#7: " ++ e)
  | .ok (_, content) =>
    match parseCTL content with
    | .error e => .error ("error parsing CTL: " ++ e)
    | .ok ctl => .ok ctl

/-!
Concrete inputs used by witnesses and counterexamples.  `derElem t c`
builds one short-form DER element with tag `t` and contents `c`.
-/

/-- One short-form DER element: tag, length byte, contents. -/
def derElem (t : Nat) (c : List Nat) : List Nat := t :: c.length :: c

/-- Content bytes of the UTCTime string 2501010000Z (Jan 1 2025, 00:00 UTC). -/
def utc2025 : List Nat := [50, 53, 48, 49, 48, 49, 48, 48, 48, 48, 90]

/-- The timestamp decoded from `utc2025`. -/
def ts2025 : Timestamp := ⟨2025, 1, 1, 0, 0, 0⟩

/-- DER content octets of the CT-log extension OID 1.3.6.1.4.1.311.10.3.52. -/
def ctLogOIDBytes : List Nat := [43, 6, 1, 4, 1, 130, 55, 10, 3, 52]

/-- A ten-byte opaque SPKI blob (SEQUENCE with eight content bytes). -/
def spki10 : List Nat := derElem 48 [1, 2, 3, 4, 5, 6, 7, 8]

/-- A twenty-byte opaque SPKI blob (SEQUENCE with eighteen content bytes). -/
def spki20 : List Nat := derElem 48 (List.replicate 18 187)

/-- A CT-log extension value: version list `[1]`, then the two SPKI blobs. -/
def ctlogsVal : List Nat := derElem 48 (derElem 48 (derElem 2 [1]) ++ spki10 ++ spki20)

/-- A full extension carrying the CT-log OID and `ctlogsVal`. -/
def ctExt : List Nat := derElem 48 (derElem 6 ctLogOIDBytes ++ derElem 4 ctlogsVal)

/-- A CTL body with sequence number 1, effective date `ts2025`, and one
CT-log extension (`ctExt`). -/
def ctlBody : List Nat :=
  derElem 48 (derElem 48 [] ++ derElem 2 [1] ++ derElem 23 utc2025 ++
    derElem 48 [] ++ derElem 48 [] ++ derElem 160 (derElem 48 ctExt))

/-- A PKCS#7 SignedData envelope around a content element, with a chosen
outer content-type OID (content octets `oid`) and arbitrary extra bytes
after the content element inside the innermost explicit wrapper. -/
def mkEnvelope (oid : List Nat) (ctlElem : List Nat) (extra : List Nat) : List Nat :=
  derElem 48 (derElem 6 oid ++
    derElem 160 (derElem 48 (derElem 2 [1] ++ derElem 49 [] ++
      derElem 48 (derElem 6 [42] ++ derElem 160 (ctlElem ++ extra)))))

/-- The base valid input: envelope around `ctlBody`, no extra bytes. -/
def exampleInput : List Nat := mkEnvelope [42] ctlBody []

/-- The CTL decoded from `exampleInput`. -/
def exampleCTL : CTL := ⟨1, ts2025, [1], [spki10, spki20]⟩

/-- A well-formed extension with a non-CT OID (1.2) and empty value. -/
def otherExt : List Nat := derElem 48 (derElem 6 [42] ++ derElem 4 [])

/-- A CTL body whose extensions block carries only `otherExt`. -/
def ctlBodyOtherExt : List Nat :=
  derElem 48 (derElem 48 [] ++ derElem 2 [1] ++ derElem 23 utc2025 ++
    derElem 48 [] ++ derElem 48 [] ++ derElem 160 (derElem 48 otherExt))

/-- A second CT-log extension value: version list `[2]`, one SPKI blob. -/
def ctlogsVal2 : List Nat := derElem 48 (derElem 48 (derElem 2 [2]) ++ spki10)

/-- A second full CT-log extension wrapping `ctlogsVal2`. -/
def ctExt2 : List Nat := derElem 48 (derElem 6 ctLogOIDBytes ++ derElem 4 ctlogsVal2)

/-- A CTL body carrying two CT-log extensions, `ctExt` then `ctExt2`. -/
def ctlBodyTwoExts : List Nat :=
  derElem 48 (derElem 48 [] ++ derElem 2 [1] ++ derElem 23 utc2025 ++
    derElem 48 [] ++ derElem 48 [] ++ derElem 160 (derElem 48 (ctExt ++ ctExt2)))

/-!
Basic facts about the TLV primitives: a parsed header is at least two
bytes and never exceeds the element; a successful read is insensitive to
bytes appended after the buffer (the element is delimited by its own
declared length); the remainder after a successful read is strictly
shorter than the input.
-/

theorem asn1Header_bounds {s : List Nat} {t hdr len : Nat}
    (h : asn1Header s = some (t, hdr, len)) : 2 ≤ hdr ∧ hdr ≤ len ∧ 2 ≤ len := by
  match s with
  | [] => simp [asn1Header] at h
  | [_] => simp [asn1Header] at h
  | a :: b :: tail =>
    simp only [asn1Header] at h
    split_ifs at h with h1 h2 h3 h4 h5 h6 h7
    · obtain ⟨rfl, rfl, rfl⟩ : a = t ∧ 2 = hdr ∧ b + 2 = len := by
        simpa using h
      omega
    · obtain ⟨rfl, rfl, rfl⟩ :
        a = t ∧ 2 + b % 128 = hdr ∧ 2 + b % 128 + beNat (tail.take (b % 128)) = len := by
        simpa using h
      omega

theorem asn1Header_append {s r : List Nat} {x : Nat × Nat × Nat}
    (h : asn1Header s = some x) : asn1Header (s ++ r) = some x := by
  match s with
  | [] => simp [asn1Header] at h
  | [_] => simp [asn1Header] at h
  | a :: b :: tail =>
    show asn1Header (a :: b :: (tail ++ r)) = some x
    by_cases h1 : a % 32 = 31
    · simp [asn1Header, h1] at h
    by_cases h2 : b < 128
    · simpa [asn1Header, h1, h2] using h
    by_cases h3 : b % 128 = 0 ∨ 4 < b % 128
    · simp [asn1Header, h1, h2, h3] at h
    by_cases h4 : tail.length < b % 128
    · simp [asn1Header, h1, h2, h3, h4] at h
    have htake : (tail ++ r).take (b % 128) = tail.take (b % 128) := by
      rw [List.take_append_eq_append_take]
      have : b % 128 - tail.length = 0 := by omega
      simp [this]
    have h4' : ¬(tail ++ r).length < b % 128 := by
      simp only [List.length_append]; omega
    simp only [asn1Header, h1, h2, h3, h4, h4', htake, if_neg, if_false] at h ⊢
    simpa using h

theorem readAnyASN1_spec {s out : List Nat} {t : Nat} {rest : List Nat}
    (h : readAnyASN1 s = some (out, t, rest)) :
    ∃ hdr len, asn1Header s = some (t, hdr, len) ∧ len ≤ s.length ∧
      out = (s.take len).drop hdr ∧ rest = s.drop len := by
  unfold readAnyASN1 at h
  match hh : asn1Header s with
  | none => rw [hh] at h; exact absurd h (by simp)
  | some (t', hdr, len) =>
    rw [hh] at h
    by_cases hl : s.length < len
    · simp [hl] at h
    · simp only [hl, if_false, if_neg, Option.some.injEq] at h
      obtain ⟨ho, ht, hr⟩ := by simpa using h
      exact ⟨hdr, len, by rw [ht], by omega, ho.symm, hr.symm⟩

theorem readAnyASN1Element_spec {s out : List Nat} {t : Nat} {rest : List Nat}
    (h : readAnyASN1Element s = some (out, t, rest)) :
    ∃ hdr len, asn1Header s = some (t, hdr, len) ∧ len ≤ s.length ∧
      out = s.take len ∧ rest = s.drop len := by
  unfold readAnyASN1Element at h
  match hh : asn1Header s with
  | none => rw [hh] at h; exact absurd h (by simp)
  | some (t', hdr, len) =>
    rw [hh] at h
    by_cases hl : s.length < len
    · simp [hl] at h
    · simp only [hl, if_false, if_neg, Option.some.injEq] at h
      obtain ⟨ho, ht, hr⟩ := by simpa using h
      exact ⟨hdr, len, by rw [ht], by omega, ho.symm, hr.symm⟩

theorem readAnyASN1_append {s r out : List Nat} {t : Nat} {rest : List Nat}
    (h : readAnyASN1 s = some (out, t, rest)) :
    readAnyASN1 (s ++ r) = some (out, t, rest ++ r) := by
  obtain ⟨hdr, len, hh, hle, ho, hr⟩ := readAnyASN1_spec h
  unfold readAnyASN1
  rw [asn1Header_append hh]
  have harith : ¬s.length + r.length < len := by omega
  have htake : (s ++ r).take len = s.take len := by
    rw [List.take_append_eq_append_take]
    have : len - s.length = 0 := by omega
    simp [this]
  have hdrop : (s ++ r).drop len = s.drop len ++ r := by
    rw [List.drop_append_eq_append_drop]
    have : len - s.length = 0 := by omega
    simp [this]
  simp [htake, hdrop, ho, hr, harith]

theorem readAnyASN1Element_append {s r out : List Nat} {t : Nat} {rest : List Nat}
    (h : readAnyASN1Element s = some (out, t, rest)) :
    readAnyASN1Element (s ++ r) = some (out, t, rest ++ r) := by
  obtain ⟨hdr, len, hh, hle, ho, hr⟩ := readAnyASN1Element_spec h
  unfold readAnyASN1Element
  rw [asn1Header_append hh]
  have harith : ¬s.length + r.length < len := by omega
  have htake : (s ++ r).take len = s.take len := by
    rw [List.take_append_eq_append_take]
    have : len - s.length = 0 := by omega
    simp [this]
  have hdrop : (s ++ r).drop len = s.drop len ++ r := by
    rw [List.drop_append_eq_append_drop]
    have : len - s.length = 0 := by omega
    simp [this]
  simp [htake, hdrop, ho, hr, harith]

theorem readASN1_append {s r : List Nat} {tag : Nat} {out rest : List Nat}
    (h : readASN1 s tag = some (out, rest)) :
    readASN1 (s ++ r) tag = some (out, rest ++ r) := by
  unfold readASN1 at h ⊢
  match hh : readAnyASN1 s with
  | none => rw [hh] at h; exact absurd h (by simp)
  | some (out', t', rest') =>
    rw [hh] at h
    by_cases ht : t' = tag
    · simp only [ht, if_pos rfl, Option.some.injEq] at h
      obtain ⟨ho, hr⟩ := by simpa using h
      subst ho hr
      rw [readAnyASN1_append hh]
      simp [ht]
    · simp [ht] at h

theorem readASN1Element_append {s r : List Nat} {tag : Nat} {out rest : List Nat}
    (h : readASN1Element s tag = some (out, rest)) :
    readASN1Element (s ++ r) tag = some (out, rest ++ r) := by
  unfold readASN1Element at h ⊢
  match hh : readAnyASN1Element s with
  | none => rw [hh] at h; exact absurd h (by simp)
  | some (out', t', rest') =>
    rw [hh] at h
    by_cases ht : t' = tag
    · simp only [ht, if_pos rfl, Option.some.injEq] at h
      obtain ⟨ho, hr⟩ := by simpa using h
      subst ho hr
      rw [readAnyASN1Element_append hh]
      simp [ht]
    · simp [ht] at h

theorem readASN1_spec {s : List Nat} {tag : Nat} {out rest : List Nat}
    (h : readASN1 s tag = some (out, rest)) :
    ∃ hdr len, asn1Header s = some (tag, hdr, len) ∧ len ≤ s.length ∧
      out = (s.take len).drop hdr ∧ rest = s.drop len := by
  unfold readASN1 at h
  match hh : readAnyASN1 s with
  | none => rw [hh] at h; exact absurd h (by simp)
  | some (out', t', rest') =>
    rw [hh] at h
    by_cases ht : t' = tag
    · simp only [ht, if_pos rfl, Option.some.injEq] at h
      obtain ⟨ho, hr⟩ := by simpa using h
      subst ho hr
      subst ht
      exact readAnyASN1_spec hh
    · simp [ht] at h

theorem readASN1_rest_length {s : List Nat} {tag : Nat} {out rest : List Nat}
    (h : readASN1 s tag = some (out, rest)) :
    rest.length + 2 ≤ s.length := by
  obtain ⟨hdr, len, hh, hle, _, hr⟩ := readASN1_spec h
  obtain ⟨_, _, h2⟩ := asn1Header_bounds hh
  subst hr
  simp only [List.length_drop]
  omega

theorem readASN1Element_rest_length {s : List Nat} {tag : Nat} {out rest : List Nat}
    (h : readASN1Element s tag = some (out, rest)) :
    rest.length + 2 ≤ s.length := by
  unfold readASN1Element at h
  match hh : readAnyASN1Element s with
  | none => rw [hh] at h; exact absurd h (by simp)
  | some (out', t', rest') =>
    rw [hh] at h
    by_cases ht : t' = tag
    · simp only [ht, if_pos rfl, Option.some.injEq] at h
      obtain ⟨ho, hr⟩ := by simpa using h
      subst ho hr
      obtain ⟨hdr, len, hhh, hle, _, hr'⟩ := readAnyASN1Element_spec hh
      obtain ⟨_, _, h2⟩ := asn1Header_bounds hhh
      subst hr'
      simp only [List.length_drop]
      omega
    · simp [ht] at h

theorem readASN1Int64_spec {s : List Nat} {v : Int} {rest : List Nat}
    (h : readASN1Int64 s = some (v, rest)) :
    ∃ bytes, readASN1 s 2 = some (bytes, rest) ∧ checkASN1Integer bytes = true ∧
      bytes.length ≤ 8 ∧ v = intFromBytes bytes := by
  unfold readASN1Int64 at h
  match hh : readASN1 s 2 with
  | none => rw [hh] at h; exact absurd h (by simp)
  | some (bytes, rest') =>
    rw [hh] at h
    simp only [] at h
    split_ifs at h with hc
    · obtain ⟨hv, hr⟩ := by simpa using h
      subst hv hr
      exact ⟨bytes, rfl, hc.1, hc.2, rfl⟩

theorem readASN1Int32_spec {s : List Nat} {v : Int} {rest : List Nat}
    (h : readASN1Int32 s = some (v, rest)) :
    readASN1Int64 s = some (v, rest) ∧ -(2 ^ 31) ≤ v ∧ v < 2 ^ 31 := by
  unfold readASN1Int32 at h
  match hh : readASN1Int64 s with
  | none => rw [hh] at h; exact absurd h (by simp)
  | some (v', rest') =>
    rw [hh] at h
    simp only [] at h
    split_ifs at h with hc
    · obtain ⟨hv, hr⟩ := by simpa using h
      subst hv hr
      exact ⟨rfl, hc⟩

theorem readASN1Int32_rest_length {s : List Nat} {v : Int} {rest : List Nat}
    (h : readASN1Int32 s = some (v, rest)) :
    rest.length + 2 ≤ s.length := by
  obtain ⟨h64, _, _⟩ := readASN1Int32_spec h
  obtain ⟨bytes, hb, _, _, _⟩ := readASN1Int64_spec h64
  exact readASN1_rest_length hb

theorem readASN1Int64_append {s r : List Nat} {v : Int} {rest : List Nat}
    (h : readASN1Int64 s = some (v, rest)) :
    readASN1Int64 (s ++ r) = some (v, rest ++ r) := by
  obtain ⟨bytes, hb, hc1, hc2, hv⟩ := readASN1Int64_spec h
  unfold readASN1Int64
  rw [readASN1_append hb]
  simp [hc1, hc2, hv]

theorem readASN1Int32_append {s r : List Nat} {v : Int} {rest : List Nat}
    (h : readASN1Int32 s = some (v, rest)) :
    readASN1Int32 (s ++ r) = some (v, rest ++ r) := by
  obtain ⟨h64, hlo, hhi⟩ := readASN1Int32_spec h
  unfold readASN1Int32
  rw [readASN1Int64_append h64]
  show (if -(2 ^ 31) ≤ v ∧ v < 2 ^ 31 then some (v, rest ++ r) else none) = some (v, rest ++ r)
  rw [if_pos ⟨hlo, hhi⟩]

/-!
Unfolding equations for the fuel-indexed loops: the fuel argument is
invisible as long as it is at least the buffer length, because every
iteration drops at least two bytes.  The `_nil`/`_step`/`_err` lemmas
recover each Go loop exactly as written.
-/

theorem ctlogsVersionLoopF_nil (f : Nat) (acc : List Int) :
    ctlogsVersionLoopF f [] acc = .ok acc := by
  cases f <;> rfl

theorem ctlogsVersionLoopF_mono (f1 : Nat) :
    ∀ (f2 : Nat) (s : List Nat) (acc : List Int), s.length ≤ f1 → s.length ≤ f2 →
      ctlogsVersionLoopF f1 s acc = ctlogsVersionLoopF f2 s acc := by
  induction f1 with
  | zero =>
    intro f2 s acc h1 _
    have : s = [] := List.eq_nil_of_length_eq_zero (by omega)
    subst this
    rw [ctlogsVersionLoopF_nil, ctlogsVersionLoopF_nil]
  | succ n ih =>
    intro f2 s acc h1 h2
    cases s with
    | nil => rw [ctlogsVersionLoopF_nil, ctlogsVersionLoopF_nil]
    | cons b bs =>
      cases f2 with
      | zero => simp at h2
      | succ m =>
        show (match readASN1Int32 (b :: bs) with
          | none => (.error "version SEQUENCE contains malformed INTEGER" :
              Except String (List Int))
          | some (i, rest) => ctlogsVersionLoopF n rest (acc ++ [i])) =
          (match readASN1Int32 (b :: bs) with
          | none => .error "version SEQUENCE contains malformed INTEGER"
          | some (i, rest) => ctlogsVersionLoopF m rest (acc ++ [i]))
        match hh : readASN1Int32 (b :: bs) with
        | none => rfl
        | some (i, rest) =>
          have hr := readASN1Int32_rest_length hh
          simp only [List.length_cons] at h1 h2 hr
          exact ih m rest (acc ++ [i]) (by omega) (by omega)

theorem ctlogsVersionLoop_nil (acc : List Int) : ctlogsVersionLoop [] acc = .ok acc := rfl

theorem ctlogsVersionLoop_step {s : List Nat} {i : Int} {rest : List Nat}
    (h : readASN1Int32 s = some (i, rest)) (acc : List Int) :
    ctlogsVersionLoop s acc = ctlogsVersionLoop rest (acc ++ [i]) := by
  have hlen := readASN1Int32_rest_length h
  cases s with
  | nil => simp at hlen
  | cons b bs =>
    show ctlogsVersionLoopF (bs.length + 1) (b :: bs) acc = _
    have hstep : ctlogsVersionLoopF (bs.length + 1) (b :: bs) acc =
        ctlogsVersionLoopF bs.length rest (acc ++ [i]) := by
      show (match readASN1Int32 (b :: bs) with
        | none => (.error "version SEQUENCE contains malformed INTEGER" :
            Except String (List Int))
        | some (i, rest) => ctlogsVersionLoopF bs.length rest (acc ++ [i])) = _
      rw [h]
    rw [hstep]
    exact ctlogsVersionLoopF_mono bs.length rest.length rest (acc ++ [i])
      (by simp at hlen; omega) (le_refl _)

theorem ctlogsVersionLoop_err {s : List Nat} (hs : s ≠ [])
    (h : readASN1Int32 s = none) (acc : List Int) :
    ctlogsVersionLoop s acc = .error "version SEQUENCE contains malformed INTEGER" := by
  cases s with
  | nil => exact absurd rfl hs
  | cons b bs =>
    show ctlogsVersionLoopF (bs.length + 1) (b :: bs) acc = _
    show (match readASN1Int32 (b :: bs) with
      | none => (.error "version SEQUENCE contains malformed INTEGER" :
          Except String (List Int))
      | some (i, rest) => ctlogsVersionLoopF bs.length rest (acc ++ [i])) = _
    rw [h]

theorem ctlogsKeysLoopF_nil (f : Nat) (acc : List (List Nat)) :
    ctlogsKeysLoopF f [] acc = .ok acc := by
  cases f <;> rfl

theorem ctlogsKeysLoopF_mono (f1 : Nat) :
    ∀ (f2 : Nat) (s : List Nat) (acc : List (List Nat)), s.length ≤ f1 → s.length ≤ f2 →
      ctlogsKeysLoopF f1 s acc = ctlogsKeysLoopF f2 s acc := by
  induction f1 with
  | zero =>
    intro f2 s acc h1 _
    have : s = [] := List.eq_nil_of_length_eq_zero (by omega)
    subst this
    rw [ctlogsKeysLoopF_nil, ctlogsKeysLoopF_nil]
  | succ n ih =>
    intro f2 s acc h1 h2
    cases s with
    | nil => rw [ctlogsKeysLoopF_nil, ctlogsKeysLoopF_nil]
    | cons b bs =>
      cases f2 with
      | zero => simp at h2
      | succ m =>
        show (match readASN1Element (b :: bs) 48 with
          | none => (.error "malformed SPKI SEQUENCE" : Except String (List (List Nat)))
          | some (spki, rest) => ctlogsKeysLoopF n rest (acc ++ [spki])) =
          (match readASN1Element (b :: bs) 48 with
          | none => .error "malformed SPKI SEQUENCE"
          | some (spki, rest) => ctlogsKeysLoopF m rest (acc ++ [spki]))
        match hh : readASN1Element (b :: bs) 48 with
        | none => rfl
        | some (spki, rest) =>
          have hr := readASN1Element_rest_length hh
          simp only [List.length_cons] at h1 h2 hr
          exact ih m rest (acc ++ [spki]) (by omega) (by omega)

theorem ctlogsKeysLoop_nil (acc : List (List Nat)) : ctlogsKeysLoop [] acc = .ok acc := rfl

theorem ctlogsKeysLoop_step {s spki : List Nat} {rest : List Nat}
    (h : readASN1Element s 48 = some (spki, rest)) (acc : List (List Nat)) :
    ctlogsKeysLoop s acc = ctlogsKeysLoop rest (acc ++ [spki]) := by
  have hlen := readASN1Element_rest_length h
  cases s with
  | nil => simp at hlen
  | cons b bs =>
    show ctlogsKeysLoopF (bs.length + 1) (b :: bs) acc = _
    have hstep : ctlogsKeysLoopF (bs.length + 1) (b :: bs) acc =
        ctlogsKeysLoopF bs.length rest (acc ++ [spki]) := by
      show (match readASN1Element (b :: bs) 48 with
        | none => (.error "malformed SPKI SEQUENCE" : Except String (List (List Nat)))
        | some (spki, rest) => ctlogsKeysLoopF bs.length rest (acc ++ [spki])) = _
      rw [h]
    rw [hstep]
    exact ctlogsKeysLoopF_mono bs.length rest.length rest (acc ++ [spki])
      (by simp at hlen; omega) (le_refl _)

theorem parseCTLExtensionsF_nil (f : Nat) (acc : List Int × List (List Nat)) :
    parseCTLExtensionsF f [] acc = .ok acc := by
  cases f <;> rfl

theorem parseCTLExtensionsF_mono (f1 : Nat) :
    ∀ (f2 : Nat) (s : List Nat) (acc : List Int × List (List Nat)),
      s.length ≤ f1 → s.length ≤ f2 →
      parseCTLExtensionsF f1 s acc = parseCTLExtensionsF f2 s acc := by
  induction f1 with
  | zero =>
    intro f2 s acc h1 _
    have : s = [] := List.eq_nil_of_length_eq_zero (by omega)
    subst this
    rw [parseCTLExtensionsF_nil, parseCTLExtensionsF_nil]
  | succ n ih =>
    intro f2 s acc h1 h2
    cases s with
    | nil => rw [parseCTLExtensionsF_nil, parseCTLExtensionsF_nil]
    | cons b bs =>
      cases f2 with
      | zero => simp at h2
      | succ m =>
        simp only [parseCTLExtensionsF]
        match hh : readASN1 (b :: bs) 48 with
        | none => rfl
        | some (extension, rest) =>
          have hr := readASN1_rest_length hh
          simp only [List.length_cons] at h1 h2 hr
          have hrec : parseCTLExtensionsF n rest = parseCTLExtensionsF m rest := by
            funext a
            exact ih m rest a (by omega) (by omega)
          simp only [hrec]

theorem parseCTLExtensions_nil (acc : List Int × List (List Nat)) :
    parseCTLExtensions [] acc = .ok acc := rfl

theorem parseCTLExtensions_stepMatch {exts extension rest ext2 ext3 value vrest : List Nat}
    {r : List Int × List (List Nat)}
    (h1 : readASN1 exts 48 = some (extension, rest))
    (h2 : readASN1ObjectIdentifier extension = some (ctLogOID, ext2))
    (h3 : skipOptionalASN1 ext2 1 = some ext3)
    (h4 : readASN1 ext3 4 = some (value, vrest))
    (h5 : parseCTLogs value = .ok r) (acc : List Int × List (List Nat)) :
    parseCTLExtensions exts acc = parseCTLExtensions rest r := by
  have hlen := readASN1_rest_length h1
  cases exts with
  | nil => simp at hlen
  | cons b bs =>
    show parseCTLExtensionsF (bs.length + 1) (b :: bs) acc = _
    have hstep : parseCTLExtensionsF (bs.length + 1) (b :: bs) acc =
        parseCTLExtensionsF bs.length rest r := by
      simp only [parseCTLExtensionsF, h1, h2, h3, h4, h5]
      simp
    rw [hstep]
    exact parseCTLExtensionsF_mono bs.length rest.length rest r
      (by simp at hlen; omega) (le_refl _)

theorem parseCTLExtensions_stepNoMatch {exts extension rest ext2 ext3 value vrest : List Nat}
    {id : List Nat}
    (h1 : readASN1 exts 48 = some (extension, rest))
    (h2 : readASN1ObjectIdentifier extension = some (id, ext2))
    (h3 : skipOptionalASN1 ext2 1 = some ext3)
    (h4 : readASN1 ext3 4 = some (value, vrest))
    (h5 : id ≠ ctLogOID) (acc : List Int × List (List Nat)) :
    parseCTLExtensions exts acc = parseCTLExtensions rest acc := by
  have hlen := readASN1_rest_length h1
  cases exts with
  | nil => simp at hlen
  | cons b bs =>
    show parseCTLExtensionsF (bs.length + 1) (b :: bs) acc = _
    have hstep : parseCTLExtensionsF (bs.length + 1) (b :: bs) acc =
        parseCTLExtensionsF bs.length rest acc := by
      simp only [parseCTLExtensionsF, h1, h2, h3, h4, h5, if_neg, if_false, ite_false]
    rw [hstep]
    exact parseCTLExtensionsF_mono bs.length rest.length rest acc
      (by simp at hlen; omega) (le_refl _)

/-!
Two specification predicates used to state claims about the extension
loop.  `extsProcess` describes the action of the loop on a chunk of the
extension list that it consumes without error, returning the final
accumulator; `extsWellFormedNoCT` holds of a chunk made solely of
well-formed extensions whose OID differs from the CT-log OID.
-/

/-- Fuel-indexed form of `extsProcess`. -/
def extsProcessF :
    Nat → List Nat → List Int × List (List Nat) → Option (List Int × List (List Nat))
  | _, [], acc => some acc
  | 0, _ :: _, _ => none
  | fuel + 1, exts, acc =>
    match readASN1 exts 48 with
    | none => none
    | some (extension, rest) =>
      match readASN1ObjectIdentifier extension with
      | none => none
      | some (id, ext2) =>
        match skipOptionalASN1 ext2 1 with
        | none => none
        | some ext3 =>
          match readASN1 ext3 4 with
          | none => none
          | some (value, _) =>
            if id = ctLogOID then
              match parseCTLogs value with
              | .error _ => none
              | .ok r => extsProcessF fuel rest r
            else extsProcessF fuel rest acc

/-- The accumulator produced by running the extension loop over a chunk
of the extension list that it consumes completely without error. -/
def extsProcess (exts : List Nat) (acc : List Int × List (List Nat)) :
    Option (List Int × List (List Nat)) :=
  extsProcessF exts.length exts acc

/-- Fuel-indexed form of `extsWellFormedNoCT`. -/
def extsWellFormedNoCTF : Nat → List Nat → Bool
  | _, [] => true
  | 0, _ :: _ => false
  | fuel + 1, exts =>
    match readASN1 exts 48 with
    | none => false
    | some (extension, rest) =>
      match readASN1ObjectIdentifier extension with
      | none => false
      | some (id, ext2) =>
        match skipOptionalASN1 ext2 1 with
        | none => false
        | some ext3 =>
          match readASN1 ext3 4 with
          | none => false
          | some _ => id ≠ ctLogOID && extsWellFormedNoCTF fuel rest

/-- The chunk is a list of well-formed extensions (SEQUENCE of OID,
optional BOOLEAN, OCTET STRING) none of which carries the CT-log OID. -/
def extsWellFormedNoCT (exts : List Nat) : Bool :=
  extsWellFormedNoCTF exts.length exts

theorem extsProcessF_nil (f : Nat) (acc : List Int × List (List Nat)) :
    extsProcessF f [] acc = some acc := by
  cases f <;> rfl

theorem extsProcessF_mono (f1 : Nat) :
    ∀ (f2 : Nat) (s : List Nat) (acc : List Int × List (List Nat)),
      s.length ≤ f1 → s.length ≤ f2 → extsProcessF f1 s acc = extsProcessF f2 s acc := by
  induction f1 with
  | zero =>
    intro f2 s acc h1 _
    have : s = [] := List.eq_nil_of_length_eq_zero (by omega)
    subst this
    rw [extsProcessF_nil, extsProcessF_nil]
  | succ n ih =>
    intro f2 s acc h1 h2
    cases s with
    | nil => rw [extsProcessF_nil, extsProcessF_nil]
    | cons b bs =>
      cases f2 with
      | zero => simp at h2
      | succ m =>
        simp only [extsProcessF]
        match hh : readASN1 (b :: bs) 48 with
        | none => rfl
        | some (extension, rest) =>
          have hr := readASN1_rest_length hh
          simp only [List.length_cons] at h1 h2 hr
          have hrec : extsProcessF n rest = extsProcessF m rest := by
            funext a
            exact ih m rest a (by omega) (by omega)
          simp only [hrec]

theorem extsWellFormedNoCTF_nil (f : Nat) : extsWellFormedNoCTF f [] = true := by
  cases f <;> rfl

theorem extsWellFormedNoCTF_mono (f1 : Nat) :
    ∀ (f2 : Nat) (s : List Nat), s.length ≤ f1 → s.length ≤ f2 →
      extsWellFormedNoCTF f1 s = extsWellFormedNoCTF f2 s := by
  induction f1 with
  | zero =>
    intro f2 s h1 _
    have : s = [] := List.eq_nil_of_length_eq_zero (by omega)
    subst this
    rw [extsWellFormedNoCTF_nil, extsWellFormedNoCTF_nil]
  | succ n ih =>
    intro f2 s h1 h2
    cases s with
    | nil => rw [extsWellFormedNoCTF_nil, extsWellFormedNoCTF_nil]
    | cons b bs =>
      cases f2 with
      | zero => simp at h2
      | succ m =>
        simp only [extsWellFormedNoCTF]
        match hh : readASN1 (b :: bs) 48 with
        | none => rfl
        | some (extension, rest) =>
          have hr := readASN1_rest_length hh
          simp only [List.length_cons] at h1 h2 hr
          have hrec : extsWellFormedNoCTF n rest = extsWellFormedNoCTF m rest :=
            ih m rest (by omega) (by omega)
          simp only [hrec]

theorem extsProcess_cons {x : Nat} {xs : List Nat} {acc acc1 : List Int × List (List Nat)}
    (h : extsProcess (x :: xs) acc = some acc1) :
    ∃ extension rest id ext2 ext3 value vrest,
      readASN1 (x :: xs) 48 = some (extension, rest) ∧
      readASN1ObjectIdentifier extension = some (id, ext2) ∧
      skipOptionalASN1 ext2 1 = some ext3 ∧
      readASN1 ext3 4 = some (value, vrest) ∧
      ((∃ r, id = ctLogOID ∧ parseCTLogs value = .ok r ∧ extsProcess rest r = some acc1) ∨
        (id ≠ ctLogOID ∧ extsProcess rest acc = some acc1)) := by
  have h' : (match readASN1 (x :: xs) 48 with
    | none => none
    | some (extension, rest) =>
      match readASN1ObjectIdentifier extension with
      | none => none
      | some (id, ext2) =>
        match skipOptionalASN1 ext2 1 with
        | none => none
        | some ext3 =>
          match readASN1 ext3 4 with
          | none => none
          | some (value, _) =>
            if id = ctLogOID then
              match parseCTLogs value with
              | .error _ => none
              | .ok r => extsProcessF xs.length rest r
            else extsProcessF xs.length rest acc) = some acc1 := h
  clear h
  match hh1 : readASN1 (x :: xs) 48 with
  | none => rw [hh1] at h'; simp at h'
  | some (extension, rest) =>
    simp only [hh1] at h'
    have hr : rest.length ≤ xs.length := by
      have := readASN1_rest_length hh1
      simp only [List.length_cons] at this
      omega
    match hh2 : readASN1ObjectIdentifier extension with
    | none => rw [hh2] at h'; simp at h'
    | some (id, ext2) =>
      simp only [hh2] at h'
      match hh3 : skipOptionalASN1 ext2 1 with
      | none => rw [hh3] at h'; simp at h'
      | some ext3 =>
        simp only [hh3] at h'
        match hh4 : readASN1 ext3 4 with
        | none => rw [hh4] at h'; simp at h'
        | some (value, vrest) =>
          simp only [hh4] at h'
          by_cases hid : id = ctLogOID
          · rw [if_pos hid] at h'
            match hh5 : parseCTLogs value with
            | .error e => rw [hh5] at h'; simp at h'
            | .ok r =>
              simp only [hh5] at h'
              refine ⟨extension, rest, id, ext2, ext3, value, vrest, rfl, hh2, hh3, hh4,
                Or.inl ⟨r, hid, hh5, ?_⟩⟩
              rw [extsProcess, extsProcessF_mono rest.length xs.length rest r (le_refl _) hr]
              exact h'
          · rw [if_neg hid] at h'
            refine ⟨extension, rest, id, ext2, ext3, value, vrest, rfl, hh2, hh3, hh4,
              Or.inr ⟨hid, ?_⟩⟩
            rw [extsProcess, extsProcessF_mono rest.length xs.length rest acc (le_refl _) hr]
            exact h'

theorem extsWellFormedNoCT_cons {x : Nat} {xs : List Nat}
    (h : extsWellFormedNoCT (x :: xs) = true) :
    ∃ extension rest id ext2 ext3 value vrest,
      readASN1 (x :: xs) 48 = some (extension, rest) ∧
      readASN1ObjectIdentifier extension = some (id, ext2) ∧
      skipOptionalASN1 ext2 1 = some ext3 ∧
      readASN1 ext3 4 = some (value, vrest) ∧
      id ≠ ctLogOID ∧ extsWellFormedNoCT rest = true := by
  have h' : (match readASN1 (x :: xs) 48 with
    | none => false
    | some (extension, rest) =>
      match readASN1ObjectIdentifier extension with
      | none => false
      | some (id, ext2) =>
        match skipOptionalASN1 ext2 1 with
        | none => false
        | some ext3 =>
          match readASN1 ext3 4 with
          | none => false
          | some _ => id ≠ ctLogOID && extsWellFormedNoCTF xs.length rest) = true := h
  clear h
  match hh1 : readASN1 (x :: xs) 48 with
  | none => rw [hh1] at h'; simp at h'
  | some (extension, rest) =>
    simp only [hh1] at h'
    have hr : rest.length ≤ xs.length := by
      have := readASN1_rest_length hh1
      simp only [List.length_cons] at this
      omega
    match hh2 : readASN1ObjectIdentifier extension with
    | none => rw [hh2] at h'; simp at h'
    | some (id, ext2) =>
      simp only [hh2] at h'
      match hh3 : skipOptionalASN1 ext2 1 with
      | none => rw [hh3] at h'; simp at h'
      | some ext3 =>
        simp only [hh3] at h'
        match hh4 : readASN1 ext3 4 with
        | none => rw [hh4] at h'; simp at h'
        | some (value, vrest) =>
          simp only [hh4, Bool.and_eq_true] at h'
          refine ⟨extension, rest, id, ext2, ext3, value, vrest, rfl, hh2, hh3, hh4,
            by simpa using h'.1, ?_⟩
          rw [extsWellFormedNoCT, extsWellFormedNoCTF_mono rest.length xs.length rest
            (le_refl _) hr]
          exact h'.2

theorem extsProcess_append_aux (n : Nat) :
    ∀ (a : List Nat), a.length ≤ n →
      ∀ (b : List Nat) (acc acc1 : List Int × List (List Nat)),
        extsProcess a acc = some acc1 →
        parseCTLExtensions (a ++ b) acc = parseCTLExtensions b acc1 := by
  induction n with
  | zero =>
    intro a ha b acc acc1 h
    have : a = [] := List.eq_nil_of_length_eq_zero (by omega)
    subst this
    have : acc = acc1 := by simpa [extsProcess, extsProcessF_nil] using h
    subst this
    simp
  | succ n ih =>
    intro a ha b acc acc1 h
    cases a with
    | nil =>
      have : acc = acc1 := by simpa [extsProcess, extsProcessF_nil] using h
      subst this
      simp
    | cons x xs =>
      obtain ⟨extension, rest, id, ext2, ext3, value, vrest, h1, h2, h3, h4, hcase⟩ :=
        extsProcess_cons h
      have hr : rest.length ≤ n := by
        have := readASN1_rest_length h1
        simp only [List.length_cons] at this ha
        omega
      have h1b : readASN1 ((x :: xs) ++ b) 48 = some (extension, rest ++ b) :=
        readASN1_append h1
      rcases hcase with ⟨r, hid, hlogs, hrec⟩ | ⟨hid, hrec⟩
      · subst hid
        rw [List.cons_append] at h1b ⊢
        rw [parseCTLExtensions_stepMatch h1b h2 h3 h4 hlogs acc]
        exact ih rest hr b r acc1 hrec
      · rw [List.cons_append] at h1b ⊢
        rw [parseCTLExtensions_stepNoMatch h1b h2 h3 h4 hid acc]
        exact ih rest hr b acc acc1 hrec

theorem extsProcess_append {a b : List Nat} {acc acc1 : List Int × List (List Nat)}
    (h : extsProcess a acc = some acc1) :
    parseCTLExtensions (a ++ b) acc = parseCTLExtensions b acc1 :=
  extsProcess_append_aux a.length a (le_refl _) b acc acc1 h

theorem extsNoCT_ok_aux (n : Nat) :
    ∀ (exts : List Nat), exts.length ≤ n → extsWellFormedNoCT exts = true →
      ∀ acc, parseCTLExtensions exts acc = .ok acc := by
  induction n with
  | zero =>
    intro exts he _ acc
    have : exts = [] := List.eq_nil_of_length_eq_zero (by omega)
    subst this
    exact parseCTLExtensions_nil acc
  | succ n ih =>
    intro exts he hwf acc
    cases exts with
    | nil => exact parseCTLExtensions_nil acc
    | cons x xs =>
      obtain ⟨extension, rest, id, ext2, ext3, value, vrest, h1, h2, h3, h4, hid, hrest⟩ :=
        extsWellFormedNoCT_cons hwf
      have hr : rest.length ≤ n := by
        have := readASN1_rest_length h1
        simp only [List.length_cons] at this he
        omega
      rw [parseCTLExtensions_stepNoMatch h1 h2 h3 h4 hid acc]
      exact ih rest hr hrest acc

theorem extsNoCT_ok {exts : List Nat} (h : extsWellFormedNoCT exts = true)
    (acc : List Int × List (List Nat)) : parseCTLExtensions exts acc = .ok acc :=
  extsNoCT_ok_aux exts.length exts (le_refl _) h acc

/-!
Truncation: when an element spans the whole buffer, every strict prefix
of the buffer fails to parse, because the header either becomes
unreadable or still declares the full length, which now exceeds the
remaining bytes.
-/

theorem asn1Header_take {s : List Nat} {t hdr len : Nat}
    (h : asn1Header s = some (t, hdr, len)) {k : Nat} :
    asn1Header (s.take k) = none ∨ asn1Header (s.take k) = some (t, hdr, len) := by
  match s with
  | [] => simp [asn1Header] at h
  | [_] => simp [asn1Header] at h
  | a :: b :: tail =>
    match k with
    | 0 => left; rfl
    | 1 => left; rfl
    | k' + 2 =>
      have hts : (a :: b :: tail).take (k' + 2) = a :: b :: tail.take k' := rfl
      rw [hts]
      by_cases h1 : a % 32 = 31
      · simp [asn1Header, h1] at h
      by_cases h2 : b < 128
      · right
        have hcomp : a = t ∧ 2 = hdr ∧ b + 2 = len := by
          simpa [asn1Header, h1, h2] using h
        obtain ⟨rfl, rfl, rfl⟩ := hcomp
        simp [asn1Header, h1, h2]
      by_cases h3 : b % 128 = 0 ∨ 4 < b % 128
      · simp [asn1Header, h1, h2, h3] at h
      by_cases h4 : tail.length < b % 128
      · simp [asn1Header, h1, h2, h3, h4] at h
      by_cases h5 : k' < b % 128
      · left
        have hc : (tail.take k').length < b % 128 := by
          simp only [List.length_take]
          omega
        simp only [asn1Header]
        rw [if_neg h1, if_neg h2, if_neg h3, if_pos hc]
      · right
        have htake : (tail.take k').take (b % 128) = tail.take (b % 128) := by
          rw [List.take_take]
          congr 1
          omega
        have h4' : ¬(tail.take k').length < b % 128 := by
          simp only [List.length_take]
          omega
        simp only [asn1Header] at h ⊢
        rw [if_neg h1, if_neg h2, if_neg h3, if_neg h4] at h
        rw [if_neg h1, if_neg h2, if_neg h3, htake, if_neg h4']
        split_ifs at h ⊢
        exact h

theorem readAnyASN1_take_none {s : List Nat} {t hdr len : Nat}
    (h : asn1Header s = some (t, hdr, len)) (hlen : s.length = len) {k : Nat}
    (hk : k < s.length) : readAnyASN1 (s.take k) = none := by
  rcases asn1Header_take (k := k) h with h0 | h1
  · unfold readAnyASN1
    rw [h0]
  · unfold readAnyASN1
    rw [h1]
    have hlt : (s.take k).length < len := by
      simp only [List.length_take]
      omega
    simp only [if_pos hlt]

theorem readASN1_take_none {s : List Nat} {tag : Nat} {out : List Nat}
    (h : readASN1 s tag = some (out, [])) {k : Nat} (hk : k < s.length) :
    readASN1 (s.take k) tag = none := by
  obtain ⟨hdr, len, hh, hle, _, hrest⟩ := readASN1_spec h
  have hlen : s.length = len := by
    have h0 : (s.drop len).length = 0 := by rw [← hrest]; rfl
    simp only [List.length_drop] at h0
    omega
  unfold readASN1
  rw [readAnyASN1_take_none hh hlen hk]

/-!
Evaluation lemmas for short-form elements built with `derElem`, used to
decode parametric inputs whose interesting field is symbolic.
-/

theorem derElem_length (t : Nat) (c : List Nat) : (derElem t c).length = c.length + 2 := by
  simp [derElem]

theorem readAnyASN1_derElem {t : Nat} {c : List Nat} (r : List Nat)
    (ht : ¬t % 32 = 31) (hc : c.length < 128) :
    readAnyASN1 (derElem t c ++ r) = some (c, t, r) := by
  have hshape : derElem t c ++ r = t :: c.length :: (c ++ r) := by simp [derElem]
  rw [hshape]
  have hh : asn1Header (t :: c.length :: (c ++ r)) = some (t, 2, c.length + 2) := by
    simp [asn1Header, ht, hc]
  unfold readAnyASN1
  rw [hh]
  have hlen : ¬(t :: c.length :: (c ++ r)).length < c.length + 2 := by
    simp only [List.length_cons, List.length_append]
    omega
  simp only [if_neg hlen]
  have htake : (t :: c.length :: (c ++ r)).take (c.length + 2) = t :: c.length :: c := by
    show t :: c.length :: (c ++ r).take c.length = _
    rw [List.take_append_eq_append_take]
    simp
  have hdrop : (t :: c.length :: (c ++ r)).drop (c.length + 2) = r := by
    show (c ++ r).drop c.length = r
    rw [List.drop_append_eq_append_drop]
    simp
  rw [htake, hdrop]
  rfl

theorem readAnyASN1Element_derElem {t : Nat} {c : List Nat} (r : List Nat)
    (ht : ¬t % 32 = 31) (hc : c.length < 128) :
    readAnyASN1Element (derElem t c ++ r) = some (derElem t c, t, r) := by
  have hshape : derElem t c ++ r = t :: c.length :: (c ++ r) := by simp [derElem]
  rw [hshape]
  have hh : asn1Header (t :: c.length :: (c ++ r)) = some (t, 2, c.length + 2) := by
    simp [asn1Header, ht, hc]
  unfold readAnyASN1Element
  rw [hh]
  have hlen : ¬(t :: c.length :: (c ++ r)).length < c.length + 2 := by
    simp only [List.length_cons, List.length_append]
    omega
  simp only [if_neg hlen]
  have htake : (t :: c.length :: (c ++ r)).take (c.length + 2) = t :: c.length :: c := by
    show t :: c.length :: (c ++ r).take c.length = _
    rw [List.take_append_eq_append_take]
    simp
  have hdrop : (t :: c.length :: (c ++ r)).drop (c.length + 2) = r := by
    show (c ++ r).drop c.length = r
    rw [List.drop_append_eq_append_drop]
    simp
  rw [htake, hdrop]
  simp [derElem]

theorem readASN1_derElem {t : Nat} {c : List Nat} (r : List Nat)
    (ht : ¬t % 32 = 31) (hc : c.length < 128) :
    readASN1 (derElem t c ++ r) t = some (c, r) := by
  unfold readASN1
  rw [readAnyASN1_derElem r ht hc]
  simp

theorem readASN1Element_derElem {t : Nat} {c : List Nat} (r : List Nat)
    (ht : ¬t % 32 = 31) (hc : c.length < 128) :
    readASN1Element (derElem t c ++ r) t = some (derElem t c, r) := by
  unfold readASN1Element
  rw [readAnyASN1Element_derElem r ht hc]
  simp

theorem skipASN1_derElem {t : Nat} {c : List Nat} (r : List Nat)
    (ht : ¬t % 32 = 31) (hc : c.length < 128) :
    skipASN1 (derElem t c ++ r) t = some r := by
  unfold skipASN1
  rw [readASN1_derElem r ht hc]

theorem readASN1_derElem_nil {t : Nat} {c : List Nat}
    (ht : ¬t % 32 = 31) (hc : c.length < 128) :
    readASN1 (derElem t c) t = some (c, []) := by
  have := readASN1_derElem (t := t) (c := c) [] ht hc
  simpa using this

theorem readAnyASN1Element_derElem_nil {t : Nat} {c : List Nat}
    (ht : ¬t % 32 = 31) (hc : c.length < 128) :
    readAnyASN1Element (derElem t c) = some (derElem t c, t, []) := by
  have := readAnyASN1Element_derElem (t := t) (c := c) [] ht hc
  simpa using this

theorem readASN1BigInt_derElem {c : List Nat} (r : List Nat)
    (hchk : checkASN1Integer c = true) (hc : c.length < 128) :
    readASN1BigInt (derElem 2 c ++ r) = some (intFromBytes c, r) := by
  unfold readASN1BigInt
  rw [readASN1_derElem r (by decide) hc]
  simp [hchk]

theorem readASN1UTCTime_derElem (r : List Nat) :
    readASN1UTCTime (derElem 23 utc2025 ++ r) = some (ts2025, r) := by
  unfold readASN1UTCTime
  rw [readASN1_derElem r (by decide) (by decide)]
  have h1 : parseUTCTimeContent utc2025 = some ts2025 := by decide
  simp only [h1]

theorem readASN1ObjectIdentifier_derElem (r : List Nat) :
    readASN1ObjectIdentifier (derElem 6 [42] ++ r) = some ([1, 2], r) := by
  unfold readASN1ObjectIdentifier
  rw [readASN1_derElem r (by decide) (by decide)]
  simp [readBase128Int, readOIDRest, readOIDRestF]

/-- A CTL body with the sequence-number INTEGER contents `bs`, no
extensions block, fixed effective date `ts2025`. -/
def mkCTLBodyNoExt (bs : List Nat) : List Nat :=
  derElem 48 (derElem 48 [] ++ derElem 2 bs ++ derElem 23 utc2025 ++
    derElem 48 [] ++ derElem 48 [])

/-- The full PKCS#7 input whose CTL carries sequence-number contents `bs`. -/
def mkSeqEnvelope (bs : List Nat) : List Nat := mkEnvelope [42] (mkCTLBodyNoExt bs) []

theorem parsePKCS7_mkEnvelope (oid ctlElem extra : List Nat)
    (hlen : oid.length + ctlElem.length + extra.length ≤ 105)
    (hcontent : ∃ t, readAnyASN1Element (ctlElem ++ extra) = some (ctlElem, t, extra)) :
    parsePKCS7 (mkEnvelope oid ctlElem extra) = .ok ([1, 2], ctlElem) := by
  obtain ⟨t0, hc⟩ := hcontent
  have hL : (ctlElem ++ extra).length = ctlElem.length + extra.length :=
    List.length_append _ _
  have e1 : readASN1 (mkEnvelope oid ctlElem extra) 48 =
      some (derElem 6 oid ++ (derElem 160 (derElem 48 (derElem 2 [1] ++ (derElem 49 [] ++
        derElem 48 (derElem 6 [42] ++ derElem 160 (ctlElem ++ extra)))))), []) := by
    unfold mkEnvelope
    have := readASN1_derElem_nil (t := 48)
      (c := derElem 6 oid ++ derElem 160 (derElem 48 (derElem 2 [1] ++ derElem 49 [] ++
        derElem 48 (derElem 6 [42] ++ derElem 160 (ctlElem ++ extra)))))
      (by decide)
      (by simp [derElem_length, List.length_append, hL]; omega)
    rw [this]
    simp [List.append_assoc]
  have e2 : skipASN1 (derElem 6 oid ++ (derElem 160 (derElem 48 (derElem 2 [1] ++
      (derElem 49 [] ++ derElem 48 (derElem 6 [42] ++
        derElem 160 (ctlElem ++ extra))))))) 6 =
      some (derElem 160 (derElem 48 (derElem 2 [1] ++ (derElem 49 [] ++
        derElem 48 (derElem 6 [42] ++ derElem 160 (ctlElem ++ extra)))))) :=
    skipASN1_derElem _ (by decide) (by omega)
  have e3 : readASN1 (derElem 160 (derElem 48 (derElem 2 [1] ++ (derElem 49 [] ++
      derElem 48 (derElem 6 [42] ++ derElem 160 (ctlElem ++ extra)))))) 160 =
      some (derElem 48 (derElem 2 [1] ++ (derElem 49 [] ++
        derElem 48 (derElem 6 [42] ++ derElem 160 (ctlElem ++ extra)))), []) :=
    readASN1_derElem_nil (by decide)
      (by simp [derElem_length, List.length_append, hL]; omega)
  have e4 : readASN1 (derElem 48 (derElem 2 [1] ++ (derElem 49 [] ++
      derElem 48 (derElem 6 [42] ++ derElem 160 (ctlElem ++ extra))))) 48 =
      some (derElem 2 [1] ++ (derElem 49 [] ++
        derElem 48 (derElem 6 [42] ++ derElem 160 (ctlElem ++ extra))), []) :=
    readASN1_derElem_nil (by decide)
      (by simp [derElem_length, List.length_append, hL]; omega)
  have e5 : skipASN1 (derElem 2 [1] ++ (derElem 49 [] ++
      derElem 48 (derElem 6 [42] ++ derElem 160 (ctlElem ++ extra)))) 2 =
      some (derElem 49 [] ++ derElem 48 (derElem 6 [42] ++
        derElem 160 (ctlElem ++ extra))) :=
    skipASN1_derElem _ (by decide) (by decide)
  have e6 : skipASN1 (derElem 49 [] ++ derElem 48 (derElem 6 [42] ++
      derElem 160 (ctlElem ++ extra))) 49 =
      some (derElem 48 (derElem 6 [42] ++ derElem 160 (ctlElem ++ extra))) :=
    skipASN1_derElem _ (by decide) (by decide)
  have e7 : readASN1 (derElem 48 (derElem 6 [42] ++
      derElem 160 (ctlElem ++ extra))) 48 =
      some (derElem 6 [42] ++ derElem 160 (ctlElem ++ extra), []) :=
    readASN1_derElem_nil (by decide)
      (by simp [derElem_length, List.length_append, hL]; omega)
  have e8 : readASN1ObjectIdentifier (derElem 6 [42] ++
      derElem 160 (ctlElem ++ extra)) =
      some ([1, 2], derElem 160 (ctlElem ++ extra)) :=
    readASN1ObjectIdentifier_derElem _
  have e9 : readASN1 (derElem 160 (ctlElem ++ extra)) 160 =
      some (ctlElem ++ extra, []) :=
    readASN1_derElem_nil (by decide) (by omega)
  unfold parsePKCS7
  simp only [e1, e2, e3, e4, e5, e6, e7, e8, e9, hc]

theorem parseCTL_mkCTLBodyNoExt (bs : List Nat) (hlen : bs.length ≤ 80)
    (hchk : checkASN1Integer bs = true) :
    parseCTL (mkCTLBodyNoExt bs) = .ok ⟨intFromBytes bs, ts2025, [], []⟩ := by
  have f1 : readASN1 (mkCTLBodyNoExt bs) 48 =
      some (derElem 48 [] ++ (derElem 2 bs ++ (derElem 23 utc2025 ++
        (derElem 48 [] ++ derElem 48 []))), []) := by
    unfold mkCTLBodyNoExt
    have := readASN1_derElem_nil (t := 48)
      (c := derElem 48 [] ++ derElem 2 bs ++ derElem 23 utc2025 ++
        derElem 48 [] ++ derElem 48 [])
      (by decide) (by simp [derElem_length, List.length_append, utc2025]; omega)
    rw [this]
    simp [List.append_assoc]
  have f2 : skipASN1 (derElem 48 [] ++ (derElem 2 bs ++ (derElem 23 utc2025 ++
      (derElem 48 [] ++ derElem 48 [])))) 48 =
      some (derElem 2 bs ++ (derElem 23 utc2025 ++ (derElem 48 [] ++ derElem 48 []))) :=
    skipASN1_derElem _ (by decide) (by decide)
  have f3 : readASN1BigInt (derElem 2 bs ++ (derElem 23 utc2025 ++
      (derElem 48 [] ++ derElem 48 []))) =
      some (intFromBytes bs, derElem 23 utc2025 ++ (derElem 48 [] ++ derElem 48 [])) :=
    readASN1BigInt_derElem _ hchk (by omega)
  have f4 : readASN1UTCTime (derElem 23 utc2025 ++ (derElem 48 [] ++ derElem 48 [])) =
      some (ts2025, derElem 48 [] ++ derElem 48 []) :=
    readASN1UTCTime_derElem _
  have f5 : skipASN1 (derElem 48 [] ++ derElem 48 []) 48 = some (derElem 48 []) :=
    skipASN1_derElem _ (by decide) (by decide)
  have f6 : skipASN1 (derElem 48 []) 48 = some ([] : List Nat) := by
    have := skipASN1_derElem (t := 48) (c := []) [] (by decide) (by decide)
    simpa using this
  have f7 : readOptionalASN1 [] 160 = some (none, []) := rfl
  unfold parseCTL
  simp only [f1, f2, f3, f4, f5, f6, f7]
  simp

/-- Decoding the parametric input recovers exactly the two-complement
value of the INTEGER contents `bs`, at any length. -/
theorem ParseAuthrootstl_mkSeqEnvelope (bs : List Nat) (hlen : bs.length ≤ 80)
    (hchk : checkASN1Integer bs = true) :
    ParseAuthrootstl (mkSeqEnvelope bs) = .ok ⟨intFromBytes bs, ts2025, [], []⟩ := by
  have hp : parsePKCS7 (mkSeqEnvelope bs) = .ok ([1, 2], mkCTLBodyNoExt bs) := by
    unfold mkSeqEnvelope
    refine parsePKCS7_mkEnvelope [42] (mkCTLBodyNoExt bs) [] ?_ ?_
    · simp [mkCTLBodyNoExt, derElem_length, List.length_append, utc2025]
      omega
    · refine ⟨48, ?_⟩
      have := readAnyASN1Element_derElem_nil (t := 48)
        (c := derElem 48 [] ++ derElem 2 bs ++ derElem 23 utc2025 ++
          derElem 48 [] ++ derElem 48 [])
        (by decide) (by simp [derElem_length, List.length_append, utc2025]; omega)
      simpa [mkCTLBodyNoExt] using this
  unfold ParseAuthrootstl
  rw [hp]
  simp only [parseCTL_mkCTLBodyNoExt bs hlen hchk]

/-!
The SPKI loop recovers exactly a concatenation of self-contained
SEQUENCE elements, in order and with duplicates kept; the version loop
walks over fitting INTEGER elements and stops with an error at the first
one that does not fit 32 bits.
-/

theorem ctlogsKeysLoop_flatten (blobs : List (List Nat))
    (h : ∀ b ∈ blobs, readASN1Element b 48 = some (b, [])) (acc : List (List Nat)) :
    ctlogsKeysLoop blobs.flatten acc = .ok (acc ++ blobs) := by
  induction blobs generalizing acc with
  | nil => simpa using ctlogsKeysLoop_nil acc
  | cons b bs ih =>
    have hb := h b (List.mem_cons_self b bs)
    have hb' : readASN1Element (b ++ bs.flatten) 48 = some (b, bs.flatten) := by
      simpa using readASN1Element_append hb
    rw [List.flatten_cons, ctlogsKeysLoop_step hb' acc]
    have := ih (fun g hg => h g (List.mem_cons_of_mem b hg)) (acc ++ [b])
    rw [this]
    simp

theorem versionLoop_skips_good (good : List (List Nat))
    (h : ∀ g ∈ good, ∃ i, readASN1Int32 g = some (i, [])) (bad : List Nat)
    (acc : List Int) :
    ∃ acc', ctlogsVersionLoop (good.flatten ++ bad) acc = ctlogsVersionLoop bad acc' := by
  induction good generalizing acc with
  | nil => exact ⟨acc, by simp⟩
  | cons g gs ih =>
    obtain ⟨i, hi⟩ := h g (List.mem_cons_self g gs)
    have hi' : readASN1Int32 (g ++ (gs.flatten ++ bad)) = some (i, gs.flatten ++ bad) := by
      simpa using readASN1Int32_append hi
    rw [List.flatten_cons, List.append_assoc, ctlogsVersionLoop_step hi']
    exact ih (fun x hx => h x (List.mem_cons_of_mem g hx)) (acc ++ [i])

theorem readASN1Int32_none_of_range {bad b brest : List Nat}
    (hb : readASN1 bad 2 = some (b, brest)) (hchk : checkASN1Integer b = true)
    (hr : intFromBytes b < -(2 ^ 31) ∨ 2 ^ 31 ≤ intFromBytes b) :
    readASN1Int32 bad = none := by
  have hno : ¬((-2147483648 : Int) ≤ intFromBytes b ∧ intFromBytes b < 2147483648) := by
    have hpow : ((2 : Int) ^ 31) = 2147483648 := by norm_num
    rw [hpow] at hr
    omega
  unfold readASN1Int32 readASN1Int64
  simp only [hb]
  by_cases h8 : b.length ≤ 8
  · simp [hchk, h8, hno]
  · simp [h8]

/-!
The claims.
-/

/-- Claim C1, amended: for every valid input whose outer PKCS#7
ContentInfo SEQUENCE spans the entire buffer (no ignored trailing
bytes), `ParseAuthrootstl` applied to any strict prefix returns a
structural error and never a partially populated success result. -/
theorem truncation_fails_when_envelope_spans_buffer
    {der : List Nat} {ctl : CTL} {seqc : List Nat} {k : Nat}
    (hvalid : ParseAuthrootstl der = .ok ctl)
    (hspan : readASN1 der 48 = some (seqc, []))
    (hk : k < der.length) :
    ParseAuthrootstl (der.take k) = .error "error parsing PKCS#7: malformed SEQUENCE" := by
  have hnone : readASN1 (der.take k) 48 = none := readASN1_take_none hspan hk
  unfold ParseAuthrootstl parsePKCS7
  simp only [hnone]
  rfl

/-- Witness for the amended claim C1: a strict prefix of the valid
102-byte `exampleInput` fails with the structural error. -/
theorem truncation_fails_when_envelope_spans_buffer_witness :
    ParseAuthrootstl (exampleInput.take 50) =
      .error "error parsing PKCS#7: malformed SEQUENCE" :=
  @truncation_fails_when_envelope_spans_buffer exampleInput exampleCTL _ 50 rfl rfl (by decide)

/-- Counterexample to claim C1 as stated: `exampleInput ++ [0]` is a
valid input (the envelope decoder ignores the trailing byte), and its
strict prefix obtained by dropping the final byte is again valid, so a
truncation of a valid input does not always fail. -/
theorem truncation_claim_cex :
    ParseAuthrootstl (exampleInput ++ [0]) = .ok exampleCTL ∧
    (exampleInput ++ [0]).take ((exampleInput ++ [0]).length - 1) = exampleInput ∧
    ParseAuthrootstl ((exampleInput ++ [0]).take ((exampleInput ++ [0]).length - 1)) =
      .ok exampleCTL :=
  ⟨rfl, by decide, rfl⟩

/-- Claim C2: for any INTEGER contents `bs` (any length up to the
short-form bound of this input family, so in particular values beyond 64
bits), the decoded `SequenceNumber` is exactly the two-complement
value of `bs`, with no truncation to a machine word. -/
theorem sequence_number_arbitrary_precision (bs : List Nat)
    (hbytes : ∀ b ∈ bs, b < 256) (hlen : bs.length ≤ 80)
    (hchk : checkASN1Integer bs = true) :
    ParseAuthrootstl (mkSeqEnvelope bs) = .ok ⟨intFromBytes bs, ts2025, [], []⟩ :=
  ParseAuthrootstl_mkSeqEnvelope bs hlen hchk

/-- Witness for claim C2: a nine-byte INTEGER decodes to `2 ^ 64`, a
value that does not fit any 64-bit machine word. -/
theorem sequence_number_arbitrary_precision_witness :
    ParseAuthrootstl (mkSeqEnvelope [1, 0, 0, 0, 0, 0, 0, 0, 0]) =
      .ok ⟨intFromBytes [1, 0, 0, 0, 0, 0, 0, 0, 0], ts2025, [], []⟩ ∧
    intFromBytes [1, 0, 0, 0, 0, 0, 0, 0, 0] = 18446744073709551616 :=
  ⟨sequence_number_arbitrary_precision [1, 0, 0, 0, 0, 0, 0, 0, 0]
    (by decide) (by decide) (by decide), by decide⟩

/-- Claim C3: when the optional extensions block is absent, or present
but containing only well-formed extensions whose OID differs from the
CT-log OID, decoding succeeds, `CTLogsVersion` and `CTLogs` are empty,
and `SequenceNumber` and `EffectiveDate` carry the parsed values. -/
theorem missing_ct_extension_not_error
    {der sequence s2 s3 s4 s5 s6 s7 : List Nat} {n : Int} {d : Timestamp}
    {optExt : Option (List Nat)}
    (h1 : readASN1 der 48 = some (sequence, []))
    (h2 : skipASN1 sequence 48 = some s2)
    (h3 : readASN1BigInt s2 = some (n, s3))
    (h4 : readASN1UTCTime s3 = some (d, s4))
    (h5 : skipASN1 s4 48 = some s5)
    (h6 : skipASN1 s5 48 = some s6)
    (h7 : readOptionalASN1 s6 160 = some (optExt, s7))
    (h8 : ∀ e, optExt = some e → ∃ inner irest, readASN1 e 48 = some (inner, irest) ∧
      extsWellFormedNoCT inner = true) :
    parseCTL der = .ok ⟨n, d, [], []⟩ := by
  unfold parseCTL
  simp only [h1, h2, h3, h4, h5, h6, h7]
  cases optExt with
  | none => simp
  | some e =>
    obtain ⟨inner, irest, hin, hwf⟩ := h8 e rfl
    have hok : parseCTLExtensions inner ([], []) = .ok ([], []) := extsNoCT_ok hwf ([], [])
    simp [hin, hok]

/-- Witness for claim C3: a CTL body whose extensions block carries one
well-formed extension with OID 1.2 decodes with empty log fields. -/
theorem missing_ct_extension_not_error_witness :
    parseCTL ctlBodyOtherExt = .ok ⟨1, ts2025, [], []⟩ := by
  refine missing_ct_extension_not_error rfl rfl rfl rfl rfl rfl rfl ?_
  intro e he
  cases he
  exact ⟨otherExt, [], by decide, by decide⟩

/-- Claim C4: a buffer consisting of one syntactically correct SEQUENCE
element followed by at least one extra byte makes the CTL decoder fail
with the trailing-data error. -/
theorem ctl_trailing_bytes_error {der seq rest : List Nat}
    (h1 : readASN1 der 48 = some (seq, rest)) (h2 : rest ≠ []) :
    parseCTL der = .error "trailing bytes after SEQUENCE" := by
  unfold parseCTL
  simp only [h1]
  simp [h2]

/-- Witness for claim C4: the correct CTL `ctlBody` followed by one
extra byte is rejected with the trailing-data error. -/
theorem ctl_trailing_bytes_error_witness :
    parseCTL (ctlBody ++ [0]) = .error "trailing bytes after SEQUENCE" :=
  ctl_trailing_bytes_error rfl (by decide)

/-- Claim C5: the decoded key list is exactly the list of self-contained
SPKI SEQUENCE elements concatenated after the version SEQUENCE — one
entry per element, in input order, raw bytes including tag and length,
duplicates kept. -/
theorem ct_logs_order_and_bytes_preserved
    {der seq vseq keysBytes : List Nat} {versions : List Int} {blobs : List (List Nat)}
    (h1 : readASN1 der 48 = some (seq, []))
    (h2 : readASN1 seq 48 = some (vseq, keysBytes))
    (h3 : ctlogsVersionLoop vseq [] = .ok versions)
    (h4 : keysBytes = blobs.flatten)
    (h5 : ∀ b ∈ blobs, readASN1Element b 48 = some (b, [])) :
    parseCTLogs der = .ok (versions, blobs) := by
  subst h4
  have hkeys : ctlogsKeysLoop blobs.flatten [] = .ok blobs := by
    have := ctlogsKeysLoop_flatten blobs h5 []
    simpa using this
  unfold parseCTLogs
  simp only [h1, h2, h3, hkeys]
  simp

/-- Witness for claim C5, the concrete scenario of the claim: version
list `[1]` and two SPKI blobs of 10 and 20 bytes decode, both at the
extension level and through the whole pipeline with sequence number 1,
to a key list of length two with the exact bytes in input order. -/
theorem ct_logs_order_and_bytes_preserved_witness :
    parseCTLogs ctlogsVal = .ok ([1], [spki10, spki20]) ∧
    spki10.length = 10 ∧ spki20.length = 20 ∧
    ParseAuthrootstl exampleInput = .ok ⟨1, ts2025, [1], [spki10, spki20]⟩ :=
  ⟨@ct_logs_order_and_bytes_preserved ctlogsVal _ _ _ [1] [spki10, spki20] rfl rfl rfl
    (by decide) (by decide), by decide, by decide, rfl⟩

/-- Claim C7: the envelope decoder skips the outer content-type OID
without comparing its value — two inputs that agree after that OID
element produce identical outcomes. -/
theorem pkcs7_content_type_oid_ignored {der1 der2 s1 s2 tail r1 r2 : List Nat}
    (h1 : readASN1 der1 48 = some (s1, r1))
    (h2 : readASN1 der2 48 = some (s2, r2))
    (h3 : skipASN1 s1 6 = some tail)
    (h4 : skipASN1 s2 6 = some tail) :
    parsePKCS7 der1 = parsePKCS7 der2 := by
  unfold parsePKCS7
  simp only [h1, h2, h3, h4]

/-- Witness for claim C7: two envelopes differing only in the outer
content-type OID value (1.2 against 1.3) decode identically, and
successfully. -/
theorem pkcs7_content_type_oid_ignored_witness :
    parsePKCS7 (mkEnvelope [42] ctlBody []) = parsePKCS7 (mkEnvelope [43] ctlBody []) ∧
    parsePKCS7 (mkEnvelope [42] ctlBody []) = .ok ([1, 2], ctlBody) :=
  ⟨pkcs7_content_type_oid_ignored rfl rfl rfl rfl, rfl⟩

/-- Claim C8: if the version SEQUENCE of the CT-log extension consists
of fitting INTEGER elements followed by a well-formed INTEGER whose
value does not fit a signed 32-bit integer, decoding fails with the
malformed-INTEGER error instead of truncating or wrapping the value. -/
theorem version_integer_out_of_range_fails
    {der seq vseq keysBytes : List Nat} {good : List (List Nat)} {bad b brest : List Nat}
    (h1 : readASN1 der 48 = some (seq, []))
    (h2 : readASN1 seq 48 = some (vseq, keysBytes))
    (h3 : vseq = good.flatten ++ bad)
    (h4 : ∀ g ∈ good, ∃ i, readASN1Int32 g = some (i, []))
    (h5 : readASN1 bad 2 = some (b, brest))
    (h6 : checkASN1Integer b = true)
    (h7 : intFromBytes b < -(2 ^ 31) ∨ 2 ^ 31 ≤ intFromBytes b) :
    parseCTLogs der = .error "version SEQUENCE contains malformed INTEGER" := by
  subst h3
  obtain ⟨acc', hloop⟩ := versionLoop_skips_good good h4 bad []
  have hbad : readASN1Int32 bad = none := readASN1Int32_none_of_range h5 h6 h7
  have hbadne : bad ≠ [] := by
    have hl := readASN1_rest_length h5
    intro e
    subst e
    simp at hl
  have herr : ctlogsVersionLoop bad acc' =
      .error "version SEQUENCE contains malformed INTEGER" :=
    ctlogsVersionLoop_err hbadne hbad acc'
  unfold parseCTLogs
  simp only [h1, h2, hloop, herr]
  simp

/-- Witness for claim C8: a version SEQUENCE holding INTEGER 1 followed
by INTEGER `2 ^ 31` (which exceeds the signed 32-bit range) is rejected. -/
theorem version_integer_out_of_range_fails_witness :
    parseCTLogs (derElem 48 (derElem 48 (derElem 2 [1] ++ derElem 2 [0, 128, 0, 0, 0]))) =
      .error "version SEQUENCE contains malformed INTEGER" := by
  refine @version_integer_out_of_range_fails _ _ _ _ [derElem 2 [1]]
    (derElem 2 [0, 128, 0, 0, 0]) _ _ rfl rfl (by decide) ?_ rfl (by decide) ?_
  · intro g hg
    have : g = derElem 2 [1] := by simpa using hg
    subst this
    exact ⟨1, by decide⟩
  · right
    decide

/-- Claim C9: the envelope decoder performs no trailing-data checks —
bytes after the outer ContentInfo SEQUENCE, or an extra element after
the content element inside the explicit wrapper, are silently ignored
and decoding still succeeds with the same result. -/
theorem envelope_trailing_data_ignored :
    ParseAuthrootstl exampleInput = .ok exampleCTL ∧
    ParseAuthrootstl (exampleInput ++ [171]) = .ok exampleCTL ∧
    ParseAuthrootstl (mkEnvelope [42] ctlBody (derElem 5 [])) = .ok exampleCTL :=
  ⟨rfl, rfl, rfl⟩

/-- Claim C10: when the extensions list ends with a CT-log extension
after any prefix the loop accepts (in particular one containing earlier
CT-log extensions) and any trailing non-matching extensions, decoding
succeeds and the returned `CTLogsVersion` and `CTLogs` are exactly the
decoded contents of that last matching extension — earlier results are
overwritten. -/
theorem last_ct_extension_wins
    {der sequence s2 s3 s4 s5 s6 s7 irest : List Nat} {n : Int} {d : Timestamp}
    {extWrap pre e2 post : List Nat} {acc1 r2 : List Int × List (List Nat)}
    {c2 ext2 ext3 value vrest : List Nat}
    (h1 : readASN1 der 48 = some (sequence, []))
    (h2 : skipASN1 sequence 48 = some s2)
    (h3 : readASN1BigInt s2 = some (n, s3))
    (h4 : readASN1UTCTime s3 = some (d, s4))
    (h5 : skipASN1 s4 48 = some s5)
    (h6 : skipASN1 s5 48 = some s6)
    (h7 : readOptionalASN1 s6 160 = some (some extWrap, s7))
    (h8 : readASN1 extWrap 48 = some (pre ++ e2 ++ post, irest))
    (h9 : extsProcess pre ([], []) = some acc1)
    (h10 : readASN1 e2 48 = some (c2, []))
    (h11 : readASN1ObjectIdentifier c2 = some (ctLogOID, ext2))
    (h12 : skipOptionalASN1 ext2 1 = some ext3)
    (h13 : readASN1 ext3 4 = some (value, vrest))
    (h14 : parseCTLogs value = .ok r2)
    (h15 : extsWellFormedNoCT post = true) :
    parseCTL der = .ok ⟨n, d, r2.1, r2.2⟩ := by
  have hchain : parseCTLExtensions (pre ++ e2 ++ post) ([], []) = .ok r2 := by
    rw [List.append_assoc]
    rw [extsProcess_append h9]
    have h10' : readASN1 (e2 ++ post) 48 = some (c2, post) := by
      simpa using readASN1_append h10
    rw [parseCTLExtensions_stepMatch h10' h11 h12 h13 h14 acc1]
    exact extsNoCT_ok h15 r2
  unfold parseCTL
  simp only [h1, h2, h3, h4, h5, h6, h7, h8, hchain]
  simp

/-- Witness for claim C10: a CTL body carrying two CT-log extensions
(version `[1]` with two blobs, then version `[2]` with one blob) decodes
to the contents of the second, overwriting the first. -/
theorem last_ct_extension_wins_witness :
    parseCTL ctlBodyTwoExts = .ok ⟨1, ts2025, [2], [spki10]⟩ := by
  refine @last_ct_extension_wins ctlBodyTwoExts _ _ _ _ _ _ _ [] _ _ _
    ctExt ctExt2 [] ([1], [spki10, spki20]) ([2], [spki10]) _ _ _ _ _
    rfl rfl rfl rfl rfl rfl rfl ?_ (by decide) rfl rfl rfl rfl rfl rfl
  decide

end Authrootstl
